import Mathlib

/-!
Verification of the collaborative-whiteboard client (boardApp_frontend).

This development shallowly embeds the drawing/undo core of the repository:
the `boardReducer` state transitions from `src/store/BoardProvider` (the
reducer concatenated into `src/src/App.js`), the valid-element filter and
socket-effect logic of the `Board` component, and the join-authorization
retry logic of its socket handlers.  JavaScript objects become Lean
structures; a possibly-null element is an `Option ElementObj`; a history
entry that may be a non-array value is modelled by the `Snap` sum type.
Mutation of shared JavaScript objects, which matters for the deep-copy
claims, is modelled separately by a small heap-indexed variant (`HBoard`)
in which element objects are cells addressed by natural numbers.
-/

/-- A sample point of a freehand stroke: a JS object with numeric x and y. -/
structure Point where
  x : Int
  y : Int
deriving DecidableEq, Repr

/-- A drawing-element object as built by the client: positional id, a `type`
field that may be absent (`none` models a missing/undefined property),
bounding geometry, style fields, an optional point sequence for freehand
strokes, and an optional text string. -/
structure ElementObj where
  id : Nat
  type : Option String
  x1 : Int
  y1 : Int
  x2 : Int
  y2 : Int
  stroke : Option String
  fill : Option String
  size : Option Int
  points : Option (List Point)
  text : Option String
deriving DecidableEq, Repr

/- Modelled from the spec: the closed tool-type variant set of
`src/constants.js`, a file absent from the provided sources.  Section 3 of
the spec fixes the recognized set as line, rectangle, circle, arrow,
freehand-brush and text; the concrete string values are immaterial to every
claim, only their distinctness and membership matter. -/
namespace TOOL_ITEMS

def LINE : String := "LINE"

def RECTANGLE : String := "RECTANGLE"

def CIRCLE : String := "CIRCLE"

def ARROW : String := "ARROW"

def BRUSH : String := "BRUSH"

def TEXT : String := "TEXT"

def ERASER : String := "ERASER"

end TOOL_ITEMS

/- Modelled from the spec: the drawing-action phases of `src/constants.js`
(absent from the provided sources); section 3 fixes the phases NONE,
DRAWING, ERASING, WRITING. -/
namespace TOOL_ACTION_TYPES

def NONE : String := "NONE"

def DRAWING : String := "DRAWING"

def ERASING : String := "ERASING"

def WRITING : String := "WRITING"

end TOOL_ACTION_TYPES

/-- The recognized element types per the spec's closed variant set. -/
def recognizedTypes : List String :=
  [TOOL_ITEMS.LINE, TOOL_ITEMS.RECTANGLE, TOOL_ITEMS.CIRCLE,
   TOOL_ITEMS.ARROW, TOOL_ITEMS.BRUSH, TOOL_ITEMS.TEXT]

/-- An element has a recognized type. -/
def recognizedEl (el : Option ElementObj) : Bool :=
  match el with
  | none => false
  | some e =>
    match e.type with
    | none => false
    | some t => recognizedTypes.contains t

/-- The JavaScript truthiness test `el && el.type` used by every
valid-element filter in the source: the entry is non-null and its `type`
property is a present, non-empty string. -/
def truthyType (el : Option ElementObj) : Bool :=
  match el with
  | none => false
  | some e =>
    match e.type with
    | none => false
    | some t => !(t == "")

/-- The inline valid-element filter `els.filter(el => el && el.type)`
appearing in the `receiveDrawingUpdate` and `loadCanvas` handlers, the API
load path, and the DRAW_UP branch of the reducer. -/
def filterValidElements (els : List (Option ElementObj)) : List (Option ElementObj) :=
  els.filter truthyType

/-- The point copy `p => ({...p})` used when deep-copying brush strokes. -/
def copyPoint (p : Point) : Point :=
  { x := p.x, y := p.y }

/-- The element copy performed in DRAW_UP (and in the UNDO/REDO
materialization): a shallow spread of the object, with the points array,
when present, replaced by a fresh array of fresh point objects. -/
def copyElement (el : ElementObj) : ElementObj :=
  { el with points :=
      match el.points with
      | some pts => some (pts.map copyPoint)
      | none => none }

/-- Lift of `copyElement` to possibly-null entries. -/
def copyJsEl (el : Option ElementObj) : Option ElementObj :=
  match el with
  | none => none
  | some e => some (copyElement e)

/-- A history entry: either an array of elements, or a malformed value
(null, undefined, or any non-array), which the UNDO/REDO recovery paths
must tolerate. -/
inductive Snap where
  | arr (els : List (Option ElementObj)) : Snap
  | bad : Snap
deriving DecidableEq, Repr

/-- The board reducer's state: active tool, action phase, live element
collection, snapshot history and cursor. -/
structure BoardState where
  activeToolItem : String
  toolActionType : String
  elements : List (Option ElementObj)
  history : List Snap
  index : Nat
deriving DecidableEq, Repr

/-- The initial board state from `BoardProvider`. -/
def initialBoardState : BoardState :=
  { activeToolItem := TOOL_ITEMS.BRUSH,
    toolActionType := TOOL_ACTION_TYPES.NONE,
    elements := [],
    history := [Snap.arr []],
    index := 0 }

/-- Modelled from the spec: `createElement` of `src/utils/element.js`, a
file absent from the provided sources.  Per section 4.1 it constructs an
element with the given positional id, bounding coordinates as given, and
style; a freehand-brush element starts with an empty point sequence; a text
element carries an anchor point plus a text string. -/
def createElement (id : Nat) (x1 y1 x2 y2 : Int) (type : Option String)
    (stroke fill : Option String) (size : Option Int) : ElementObj :=
  { id := id, type := type, x1 := x1, y1 := y1, x2 := x2, y2 := y2,
    stroke := stroke, fill := fill, size := size,
    points := if type = some TOOL_ITEMS.BRUSH then some [] else none,
    text := if type = some TOOL_ITEMS.TEXT then some "" else none }

/-- The DRAW_UP branch of `boardReducer`: filter the live collection to
valid elements, deep-copy the result, truncate the history past the cursor,
append the copy and advance the cursor.  The live `elements` field is left
untouched. -/
def drawUp (s : BoardState) : BoardState :=
  let validElements := filterValidElements s.elements
  let elementsCopy := validElements.map copyJsEl
  let newHistory := s.history.take (s.index + 1) ++ [Snap.arr elementsCopy]
  { s with history := newHistory, index := s.index + 1 }

/-- The per-element keep test of the ERASE branch: drop null or type-less
entries, and otherwise keep the element iff it is not near the pointer.
The proximity predicate `isPointNearElement` lives in `src/utils/element.js`,
absent from the provided sources; per section 4.1 of the spec it is an
arbitrary side-effect-free boolean predicate on an element and a point, so
the transition is parameterized by it. -/
def eraseKeep (hit : ElementObj → Int → Int → Bool) (cx cy : Int) :
    Option ElementObj → Bool
  | none => false
  | some e =>
    match e.type with
    | none => false
    | some t => if t == "" then false else !(hit e cx cy)

/-- The ERASE branch of `boardReducer`: filter the live collection by the
proximity test, set it live, and unconditionally truncate-and-push the
(uncopied) filtered array onto the history. -/
def erase (hit : ElementObj → Int → Int → Bool) (cx cy : Int)
    (s : BoardState) : BoardState :=
  let newElements := s.elements.filter (eraseKeep hit cx cy)
  let newHistory := s.history.take (s.index + 1) ++ [Snap.arr newElements]
  { s with elements := newElements, history := newHistory, index := s.index + 1 }

/-- The UNDO branch of `boardReducer`: no-op on empty history or cursor at
zero; otherwise materialize the previous snapshot (filtered and
deep-copied); on a malformed previous snapshot fall back to `history[0]`
when that is an array, else no-op. -/
def undo (s : BoardState) : BoardState :=
  if s.history.length = 0 then s
  else if s.index = 0 then s
  else
    let previousIndex := s.index - 1
    match s.history[previousIndex]? with
    | some (Snap.arr previousElements) =>
        { s with
          elements := (previousElements.filter truthyType).map copyJsEl,
          index := previousIndex }
    | _ =>
        match s.history[0]? with
        | some (Snap.arr h0) => { s with elements := h0, index := 0 }
        | _ => s

/-- The JSON round-trip clone `JSON.parse(JSON.stringify(x))` used by the
REDO recovery path on an array of element objects: every field is rebuilt
by value. -/
def jsonCloneEl (el : Option ElementObj) : Option ElementObj :=
  match el with
  | none => none
  | some e =>
      some { id := e.id, type := e.type, x1 := e.x1, y1 := e.y1,
             x2 := e.x2, y2 := e.y2, stroke := e.stroke, fill := e.fill,
             size := e.size,
             points :=
               match e.points with
               | some pts => some (pts.map copyPoint)
               | none => none,
             text := e.text }

/-- The REDO branch of `boardReducer`: no-op on empty history or cursor at
or past the last entry; otherwise materialize the next snapshot (filtered
and deep-copied); on a malformed next snapshot fall back to the last entry
when that is an array (JSON-cloned), else no-op. -/
def redo (s : BoardState) : BoardState :=
  if s.history.length = 0 then s
  else if s.history.length - 1 ≤ s.index then s
  else
    let nextIndex := s.index + 1
    match s.history[nextIndex]? with
    | some (Snap.arr nextElements) =>
        { s with
          elements := (nextElements.filter truthyType).map copyJsEl,
          index := nextIndex }
    | _ =>
        let lastIndex := s.history.length - 1
        match s.history[lastIndex]? with
        | some (Snap.arr lastElements) =>
            { s with elements := lastElements.map jsonCloneEl, index := lastIndex }
        | _ => s

/-- The DRAW_MOVE branch of `boardReducer`, which can throw: reading the
last entry of an empty collection or a null entry fails the destructuring
(`TypeError`); a line/rectangle/circle/arrow element is rebuilt with its
terminal coordinates at the pointer; a brush element with a present point
sequence gets the pointer appended (a missing sequence makes the spread
throw); every other type hits `throw new Error("Type not recognized")`. -/
def drawMove (clientX clientY : Int) (s : BoardState) : Except String BoardState :=
  match s.elements.getLast? with
  | none => Except.error "TypeError"
  | some none => Except.error "TypeError"
  | some (some el) =>
    if el.type = some TOOL_ITEMS.LINE ∨ el.type = some TOOL_ITEMS.RECTANGLE ∨
       el.type = some TOOL_ITEMS.CIRCLE ∨ el.type = some TOOL_ITEMS.ARROW then
      let newElement := createElement (s.elements.length - 1) el.x1 el.y1
        clientX clientY (some s.activeToolItem) el.stroke el.fill el.size
      Except.ok { s with
        elements := s.elements.set (s.elements.length - 1) (some newElement) }
    else if el.type = some TOOL_ITEMS.BRUSH then
      match el.points with
      | none => Except.error "TypeError"
      | some pts =>
        let el2 := { el with points := some (pts ++ [{ x := clientX, y := clientY }]) }
        Except.ok { s with
          elements := s.elements.set (s.elements.length - 1) (some el2) }
    else Except.error "Type not recognized"

/-- Whether the reducer threw on this action. -/
def isThrow (r : Except String BoardState) : Bool :=
  match r with
  | Except.error _ => true
  | Except.ok _ => false

/-- A history operation of claim C1: a DRAW_UP push, an undo, or a redo. -/
inductive HistOp where
  | push : HistOp
  | histUndo : HistOp
  | histRedo : HistOp
deriving DecidableEq, Repr

/-- Apply one history operation. -/
def applyOp (s : BoardState) (op : HistOp) : BoardState :=
  match op with
  | HistOp.push => drawUp s
  | HistOp.histUndo => undo s
  | HistOp.histRedo => redo s

/-- Apply a sequence of history operations, left to right. -/
def applyOps (s : BoardState) (ops : List HistOp) : BoardState :=
  ops.foldl applyOp s

/-- A history entry is an array all of whose entries pass the truthiness
filter. -/
def validSnapB (sn : Snap) : Bool :=
  match sn with
  | Snap.arr els => els.all truthyType
  | Snap.bad => false

/-- Well-formedness of a board state: every live element passes the
validity filter, every history entry is an array of such elements, the
cursor is in bounds, and the snapshot under the cursor equals the live
collection. -/
def WF (s : BoardState) : Prop :=
  s.elements.all truthyType = true ∧
  s.history.all validSnapB = true ∧
  s.index < s.history.length ∧
  s.history[s.index]? = some (Snap.arr s.elements)

instance : DecidablePred WF := by
  unfold WF
  infer_instance

/-- A board state in the heap-indexed model used for the aliasing claims:
element objects live in a cell store (`heap`, addressed by position), the
live collection and each history snapshot are lists of cell addresses.
This mirrors JavaScript reference semantics: two lists holding the same
address share the same mutable element object. -/
structure HBoard where
  heap : List ElementObj
  elements : List Nat
  history : List (List Nat)
  index : Nat
deriving DecidableEq, Repr

/-- Truthiness of the cell behind an address (dangling reads as null). -/
def refTruthy (heap : List ElementObj) (r : Nat) : Bool :=
  truthyType heap[r]?

/-- The DRAW_UP branch in the heap model: the snapshot consists of freshly
allocated copies of the valid live cells, so it shares no address with the
live collection; the live address list itself is left untouched. -/
def drawUpH (s : HBoard) : HBoard :=
  let validRefs := s.elements.filter (refTruthy s.heap)
  let newCells := (validRefs.filterMap (fun r => s.heap[r]?)).map copyElement
  let fresh := (List.range newCells.length).map (fun i => s.heap.length + i)
  { heap := s.heap ++ newCells,
    elements := s.elements,
    history := s.history.take (s.index + 1) ++ [fresh],
    index := s.index + 1 }

/-- The ERASE branch in the heap model: the filtered address list is both
set live and pushed into history, so the stored snapshot shares every
surviving element object with the live collection. -/
def eraseH (hit : ElementObj → Int → Int → Bool) (cx cy : Int)
    (s : HBoard) : HBoard :=
  let newElements := s.elements.filter (fun r =>
    match s.heap[r]? with
    | some e => eraseKeep hit cx cy (some e)
    | none => false)
  { s with elements := newElements,
           history := s.history.take (s.index + 1) ++ [newElements],
           index := s.index + 1 }

/-- Mutate one point of the element object stored at address `r` (the
mutation claim C8 exercises on a live freehand element); a no-op when the
address dangles or the element has no point sequence. -/
def setPointH (r i : Nat) (p : Point) (s : HBoard) : HBoard :=
  match s.heap[r]? with
  | some e =>
    match e.points with
    | some pts => { s with heap := s.heap.set r { e with points := some (pts.set i p) } }
    | none => s
  | none => s

/-- The element values a snapshot's addresses denote in a board's heap. -/
def snapshotVals (s : HBoard) (snap : List Nat) : List (Option ElementObj) :=
  snap.map (fun r => s.heap[r]?)

/-- The per-session join/broadcast state of the `Board` component: the
`unauthorizedRetryCount` closure variable, the `isAuthorized` flag, and
counters for the observable effects (alert calls, joinCanvas emissions from
the retry path, drawingUpdate emissions from the pointer handlers). -/
structure SessionState where
  retryCount : Nat
  authorized : Bool
  alerts : Nat
  joinRetries : Nat
  drawEmits : Nat
deriving DecidableEq, Repr

/-- Session state at effect setup: retry counter zero, authorized. -/
def initSession : SessionState :=
  { retryCount := 0, authorized := true, alerts := 0, joinRetries := 0, drawEmits := 0 }

/-- Events the session logic reacts to: an `unauthorized` message from the
server and the three pointer handlers. -/
inductive SessEvent where
  | unauthorizedMsg : SessEvent
  | mouseDown : SessEvent
  | mouseMove : SessEvent
  | mouseUp : SessEvent
deriving DecidableEq, Repr

/-- One step of the session logic, translated from `handleUnauthorized` and
`handleMouseDown`/`handleMouseMove`/`handleMouseUp`: a first unauthorized
message schedules exactly one join retry; a later one alerts and clears the
authorized flag; pointer move/up emit a drawingUpdate only while
authorized; mouse down never emits. -/
def sessStep (s : SessionState) (ev : SessEvent) : SessionState :=
  match ev with
  | SessEvent.unauthorizedMsg =>
    if s.retryCount = 0 then
      { s with retryCount := s.retryCount + 1, joinRetries := s.joinRetries + 1 }
    else
      { s with alerts := s.alerts + 1, authorized := false }
  | SessEvent.mouseDown => s
  | SessEvent.mouseMove =>
    if s.authorized then { s with drawEmits := s.drawEmits + 1 } else s
  | SessEvent.mouseUp =>
    if s.authorized then { s with drawEmits := s.drawEmits + 1 } else s

/-- Run the session logic over a list of events. -/
def sessRun (s : SessionState) (evs : List SessEvent) : SessionState :=
  evs.foldl sessStep s

/-- The `currentCanvasRef` contents: the canvas identity last rendered
(`none` models a null id) and the element list last known for it. -/
structure CanvasRef where
  id : Option String
  elements : List (Option ElementObj)
deriving DecidableEq, Repr

/-- The observable actions the socket effect performs, in order. -/
inductive BoardEffect where
  | emitDrawingUpdate (canvasId : String) (els : List (Option ElementObj)) : BoardEffect
  | updateRef (id : Option String) (els : List (Option ElementObj)) : BoardEffect
  | clearElements : BoardEffect
  | resetHistory : BoardEffect
  | setAuthorizedTrue : BoardEffect
deriving DecidableEq, Repr

/-- The action trace of the socket effect body in the `Board` component, as
run when the canvas identity prop changes: with no id it only clears; with
an id it first broadcasts the previous canvas's elements when the ref holds
a different truthy id, then updates the ref to the new id, clears the live
collection and history, and resets authorization.  (`prev.elements` is
always an array in this model, as it is for every value the component ever
stores in the ref.) -/
def socketEffectTrace (prev : CanvasRef) (id : Option String) : List BoardEffect :=
  match id with
  | none => [BoardEffect.clearElements, BoardEffect.resetHistory]
  | some newId =>
    (match prev.id with
     | some pid =>
       if pid ≠ "" ∧ pid ≠ newId then
         [BoardEffect.emitDrawingUpdate pid prev.elements]
       else []
     | none => []) ++
    [BoardEffect.updateRef (some newId) [], BoardEffect.clearElements,
     BoardEffect.resetHistory, BoardEffect.setAuthorizedTrue]

/-- A concrete valid line element used in examples. -/
def lineEl : ElementObj :=
  { id := 0, type := some TOOL_ITEMS.LINE, x1 := 0, y1 := 0, x2 := 1, y2 := 1,
    stroke := none, fill := none, size := none, points := none, text := none }

/-- A concrete element without a `type` property, like the object
`defaultFields plus foo` of the spec's mixed-list example. -/
def fooEl : ElementObj :=
  { id := 1, type := none, x1 := 0, y1 := 0, x2 := 0, y2 := 0,
    stroke := none, fill := none, size := none, points := none, text := none }

/-- A concrete element with a truthy but unrecognized `type`. -/
def wobbleEl : ElementObj :=
  { id := 2, type := some "WOBBLE", x1 := 0, y1 := 0, x2 := 0, y2 := 0,
    stroke := none, fill := none, size := none, points := none, text := none }

/-- A concrete text element. -/
def textEl : ElementObj :=
  { id := 0, type := some TOOL_ITEMS.TEXT, x1 := 0, y1 := 0, x2 := 0, y2 := 0,
    stroke := none, fill := none, size := none, points := none, text := some "hi" }

/-- A concrete freehand element with one sample point. -/
def brushEl : ElementObj :=
  { id := 0, type := some TOOL_ITEMS.BRUSH, x1 := 0, y1 := 0, x2 := 0, y2 := 0,
    stroke := none, fill := none, size := none,
    points := some [{ x := 0, y := 0 }], text := none }

/-- A valid snapshot holding the first `n` numbered line elements. -/
def snapN (n : Nat) : Snap :=
  Snap.arr ((List.range n).map (fun i => some { lineEl with id := i }))

/-- The C2 scenario start state: history of length 5, cursor at 4, live
collection matching the snapshot under the cursor. -/
def s5 : BoardState :=
  { activeToolItem := TOOL_ITEMS.BRUSH, toolActionType := TOOL_ACTION_TYPES.NONE,
    elements := (List.range 4).map (fun i => some { lineEl with id := i }),
    history := [snapN 0, snapN 1, snapN 2, snapN 3, snapN 4], index := 4 }

/-- A state whose undo target snapshot is malformed while `history[0]` is a
valid array: the undo recovery path lands on `history[0]`. -/
def sBadUndo : BoardState :=
  { activeToolItem := TOOL_ITEMS.BRUSH, toolActionType := TOOL_ACTION_TYPES.NONE,
    elements := [], history := [Snap.arr [some lineEl], Snap.bad, Snap.arr []],
    index := 2 }

/-- A state whose undo target snapshot and `history[0]` are both malformed:
undo is a no-op. -/
def sBadUndo2 : BoardState :=
  { sBadUndo with history := [Snap.bad, Snap.bad, Snap.arr []] }

/-- A state whose redo target snapshot is malformed while the last history
entry is a valid array: the redo recovery path lands on the last entry. -/
def sBadRedo : BoardState :=
  { sBadUndo with
      history := [Snap.arr [], Snap.bad, Snap.arr [some lineEl]],
      index := 0 }

/-- A state whose redo target snapshot and last history entry are both
malformed: redo is a no-op. -/
def sBadRedo2 : BoardState :=
  { sBadUndo with history := [Snap.arr [], Snap.bad, Snap.bad], index := 0 }

/-- The C4 counterexample state: DRAWING phase with a text element last. -/
def cTextState : BoardState :=
  { activeToolItem := TOOL_ITEMS.TEXT, toolActionType := TOOL_ACTION_TYPES.DRAWING,
    elements := [some textEl], history := [Snap.arr []], index := 0 }

/-- The C8 counterexample start: a heap with one live freehand element and
an initial empty snapshot. -/
def hBrush : HBoard :=
  { heap := [brushEl], elements := [0], history := [[]], index := 0 }

/-- The C8 counterexample after one erase pass that removes nothing: the
pushed snapshot holds the same address as the live collection. -/
def hBrushErased : HBoard :=
  eraseH (fun _ _ _ => false) 0 0 hBrush

/-- The shape types DRAW_MOVE rebuilds with new terminal geometry. -/
def shapeMoveTypes : List String :=
  [TOOL_ITEMS.LINE, TOOL_ITEMS.RECTANGLE, TOOL_ITEMS.CIRCLE, TOOL_ITEMS.ARROW]

/-- The types DRAW_MOVE handles without throwing (text is not among them). -/
def moveTypes : List String := shapeMoveTypes ++ [TOOL_ITEMS.BRUSH]

/-- The last live entry is a non-null element whose type DRAW_MOVE can
handle. -/
def canMoveLast (s : BoardState) : Prop :=
  ∃ el, s.elements.getLast? = some (some el) ∧
    ∃ t, el.type = some t ∧ t ∈ moveTypes

/-- The array payload of a possibly-missing history entry, `none` when the
entry is absent or not an array. -/
def snapArr? (x : Option Snap) : Option (List (Option ElementObj)) :=
  match x with
  | some (Snap.arr els) => some els
  | _ => none

/-- A state whose live collection mixes a valid element with a type-less
one, for the frame-effect claim about DRAW_UP. -/
def sMixed : BoardState :=
  { initialBoardState with elements := [some lineEl, some fooEl] }

/-- A DRAWING-phase state whose last element is a line, for exercising the
shape branch of DRAW_MOVE. -/
def cLineState : BoardState :=
  { activeToolItem := TOOL_ITEMS.LINE, toolActionType := TOOL_ACTION_TYPES.DRAWING,
    elements := [some lineEl], history := [Snap.arr []], index := 0 }

theorem copyPoint_id (p : Point) : copyPoint p = p := rfl

theorem map_copyPoint_id (pts : List Point) : pts.map copyPoint = pts := by
  induction pts with
  | nil => rfl
  | cons p rest ih => simp [copyPoint_id, ih]

theorem copyElement_id (el : ElementObj) : copyElement el = el := by
  obtain ⟨i, ty, a, b, c, d, st, f, sz, pts, tx⟩ := el
  cases pts <;> simp [copyElement, map_copyPoint_id]

theorem copyJsEl_id (el : Option ElementObj) : copyJsEl el = el := by
  cases el with
  | none => rfl
  | some e => simp [copyJsEl, copyElement_id]

theorem map_copyJsEl_id (l : List (Option ElementObj)) : l.map copyJsEl = l := by
  simp [List.map_congr_left (fun a _ => copyJsEl_id a)]

theorem jsonCloneEl_id (el : Option ElementObj) : jsonCloneEl el = el := by
  cases el with
  | none => rfl
  | some e =>
    obtain ⟨i, ty, a, b, c, d, st, f, sz, pts, tx⟩ := e
    cases pts <;> simp [jsonCloneEl, map_copyPoint_id]

theorem map_jsonCloneEl_id (l : List (Option ElementObj)) : l.map jsonCloneEl = l := by
  simp [List.map_congr_left (fun a _ => jsonCloneEl_id a)]

theorem filter_truthy_of_all (l : List (Option ElementObj))
    (h : l.all truthyType = true) : l.filter truthyType = l :=
  List.filter_eq_self.mpr (List.all_eq_true.mp h)

theorem drawUp_elements (s : BoardState) : (drawUp s).elements = s.elements := rfl

theorem WF_drawUp (s : BoardState) (h : WF s) : WF (drawUp s) := by
  obtain ⟨hel, hhist, hlt, hsnap⟩ := h
  have hfe : filterValidElements s.elements = s.elements :=
    filter_truthy_of_all s.elements hel
  have hec : (filterValidElements s.elements).map copyJsEl = s.elements := by
    rw [hfe, map_copyJsEl_id]
  have htk : (s.history.take (s.index + 1)).length = s.index + 1 := by
    rw [List.length_take]; omega
  refine ⟨hel, ?_, ?_, ?_⟩
  · show (s.history.take (s.index + 1) ++ [Snap.arr _]).all validSnapB = true
    have h1 : (s.history.take (s.index + 1)).all validSnapB = true :=
      List.all_eq_true.mpr fun x hx =>
        List.all_eq_true.mp hhist x (List.take_subset _ _ hx)
    rw [List.all_append, h1]
    simp [validSnapB, hec, hel]
  · show s.index + 1 < (s.history.take (s.index + 1) ++ [Snap.arr _]).length
    rw [List.length_append, htk]
    simp
  · show (s.history.take (s.index + 1) ++ [Snap.arr _])[s.index + 1]? = some (Snap.arr (drawUp s).elements)
    rw [drawUp_elements]
    have := List.getElem?_concat_length (s.history.take (s.index + 1))
      (Snap.arr ((filterValidElements s.elements).map copyJsEl))
    rw [htk] at this
    rw [this, hec]

theorem undo_of_index_zero (s : BoardState) (hi : s.index = 0) : undo s = s := by
  unfold undo
  by_cases h0 : s.history.length = 0
  · simp [h0]
  · simp [h0, hi]

theorem undo_of_valid_target (s : BoardState) (hi : s.index ≠ 0)
    (prev : List (Option ElementObj))
    (hsn : s.history[s.index - 1]? = some (Snap.arr prev)) :
    undo s = { s with
      elements := (prev.filter truthyType).map copyJsEl,
      index := s.index - 1 } := by
  have h0 : s.history.length ≠ 0 := by
    intro hlen
    rw [List.getElem?_eq_none] at hsn
    · exact Option.noConfusion hsn
    · omega
  unfold undo
  simp [h0, hi, hsn]

theorem WF_undo (s : BoardState) (h : WF s) : WF (undo s) := by
  obtain ⟨hel, hhist, hlt, hsnap⟩ := h
  by_cases hi : s.index = 0
  · rw [undo_of_index_zero s hi]; exact ⟨hel, hhist, hlt, hsnap⟩
  · have hprev : s.index - 1 < s.history.length := by omega
    have hsn : s.history[s.index - 1]? = some s.history[s.index - 1] :=
      List.getElem?_eq_getElem hprev
    have hmem : s.history[s.index - 1] ∈ s.history := List.getElem?_mem hsn
    have hv : validSnapB (s.history[s.index - 1]) = true :=
      List.all_eq_true.mp hhist _ hmem
    cases hs : s.history[s.index - 1] with
    | bad => rw [hs] at hv; simp [validSnapB] at hv
    | arr prev =>
      rw [hs] at hsn hv
      have hpv : prev.all truthyType = true := hv
      have hpf : prev.filter truthyType = prev := filter_truthy_of_all prev hpv
      rw [undo_of_valid_target s hi prev hsn, hpf, map_copyJsEl_id]
      have hib : s.index - 1 < s.history.length := by omega
      exact ⟨hpv, hhist, hib, hsn⟩

theorem redo_of_at_end (s : BoardState) (hi : s.history.length - 1 ≤ s.index) :
    redo s = s := by
  unfold redo
  by_cases h0 : s.history.length = 0
  · simp [h0]
  · simp [h0, hi]

theorem redo_of_valid_target (s : BoardState)
    (hi : s.index + 1 < s.history.length)
    (next : List (Option ElementObj))
    (hsn : s.history[s.index + 1]? = some (Snap.arr next)) :
    redo s = { s with
      elements := (next.filter truthyType).map copyJsEl,
      index := s.index + 1 } := by
  have h0 : s.history.length ≠ 0 := by omega
  have hlt : ¬ (s.history.length - 1 ≤ s.index) := by omega
  unfold redo
  simp [h0, hlt, hsn]

theorem WF_redo (s : BoardState) (h : WF s) : WF (redo s) := by
  obtain ⟨hel, hhist, hlt, hsnap⟩ := h
  by_cases hi : s.history.length - 1 ≤ s.index
  · rw [redo_of_at_end s hi]; exact ⟨hel, hhist, hlt, hsnap⟩
  · have hnext : s.index + 1 < s.history.length := by omega
    have hsn : s.history[s.index + 1]? = some s.history[s.index + 1] :=
      List.getElem?_eq_getElem hnext
    have hmem : s.history[s.index + 1] ∈ s.history := List.getElem?_mem hsn
    have hv : validSnapB (s.history[s.index + 1]) = true :=
      List.all_eq_true.mp hhist _ hmem
    cases hs : s.history[s.index + 1] with
    | bad => rw [hs] at hv; simp [validSnapB] at hv
    | arr next =>
      rw [hs] at hsn hv
      have hnv : next.all truthyType = true := hv
      have hnf : next.filter truthyType = next := filter_truthy_of_all next hnv
      rw [redo_of_valid_target s hnext next hsn, hnf, map_copyJsEl_id]
      exact ⟨hnv, hhist, hnext, hsn⟩

theorem WF_applyOp (s : BoardState) (h : WF s) (op : HistOp) : WF (applyOp s op) := by
  cases op with
  | push => exact WF_drawUp s h
  | histUndo => exact WF_undo s h
  | histRedo => exact WF_redo s h

theorem WF_applyOps (s : BoardState) (h : WF s) (ops : List HistOp) :
    WF (applyOps s ops) := by
  induction ops generalizing s with
  | nil => exact h
  | cons op rest ih => exact ih (applyOp s op) (WF_applyOp s h op)

theorem drawMove_shape (s : BoardState) (cx cy : Int) (el : ElementObj)
    (hl : s.elements.getLast? = some (some el))
    (hshape : el.type = some TOOL_ITEMS.LINE ∨ el.type = some TOOL_ITEMS.RECTANGLE ∨
      el.type = some TOOL_ITEMS.CIRCLE ∨ el.type = some TOOL_ITEMS.ARROW) :
    drawMove cx cy s = Except.ok { s with
      elements := s.elements.set (s.elements.length - 1)
        (some (createElement (s.elements.length - 1) el.x1 el.y1 cx cy
          (some s.activeToolItem) el.stroke el.fill el.size)) } := by
  simp only [drawMove, hl]
  rw [if_pos hshape]

theorem drawMove_brush (s : BoardState) (cx cy : Int) (el : ElementObj)
    (pts : List Point)
    (hl : s.elements.getLast? = some (some el))
    (ht : el.type = some TOOL_ITEMS.BRUSH)
    (hp : el.points = some pts) :
    drawMove cx cy s = Except.ok { s with
      elements := s.elements.set (s.elements.length - 1)
        (some { el with points := some (pts ++ [{ x := cx, y := cy }]) }) } := by
  have hns : ¬ (el.type = some TOOL_ITEMS.LINE ∨ el.type = some TOOL_ITEMS.RECTANGLE ∨
      el.type = some TOOL_ITEMS.CIRCLE ∨ el.type = some TOOL_ITEMS.ARROW) := by
    rw [ht]; decide
  simp only [drawMove, hl]
  rw [if_neg hns, if_pos ht, hp]

theorem drawMove_throw_unhandled (s : BoardState) (cx cy : Int) (el : ElementObj)
    (hl : s.elements.getLast? = some (some el))
    (hns : ¬ (el.type = some TOOL_ITEMS.LINE ∨ el.type = some TOOL_ITEMS.RECTANGLE ∨
      el.type = some TOOL_ITEMS.CIRCLE ∨ el.type = some TOOL_ITEMS.ARROW))
    (hnb : el.type ≠ some TOOL_ITEMS.BRUSH) :
    drawMove cx cy s = Except.error "Type not recognized" := by
  simp only [drawMove, hl]
  rw [if_neg hns, if_neg hnb]

theorem drawMove_noThrow_of_canMove (s : BoardState) (cx cy : Int)
    (hbrush : ∀ el, s.elements.getLast? = some (some el) →
      el.type = some TOOL_ITEMS.BRUSH → el.points.isSome = true)
    (hc : canMoveLast s) : isThrow (drawMove cx cy s) = false := by
  obtain ⟨el, hl, t, ht, hmem⟩ := hc
  simp only [moveTypes, shapeMoveTypes, List.mem_append, List.mem_cons,
    List.not_mem_nil, or_false] at hmem
  rcases hmem with (h | h | h | h) | h
  all_goals subst h
  · rw [drawMove_shape s cx cy el hl (Or.inl ht)]; rfl
  · rw [drawMove_shape s cx cy el hl (Or.inr (Or.inl ht))]; rfl
  · rw [drawMove_shape s cx cy el hl (Or.inr (Or.inr (Or.inl ht)))]; rfl
  · rw [drawMove_shape s cx cy el hl (Or.inr (Or.inr (Or.inr ht)))]; rfl
  · have hps : el.points.isSome = true := hbrush el hl ht
    obtain ⟨pts, hp⟩ := Option.isSome_iff_exists.mp hps
    rw [drawMove_brush s cx cy el pts hl ht hp]; rfl

theorem drawMove_throw_of_not_canMove (s : BoardState) (cx cy : Int)
    (hc : ¬ canMoveLast s) : isThrow (drawMove cx cy s) = true := by
  cases hl : s.elements.getLast? with
  | none => simp only [drawMove, hl]; rfl
  | some oel =>
    cases oel with
    | none => simp only [drawMove, hl]; rfl
    | some el =>
      have hnotmem : ∀ t, el.type = some t → t ∉ moveTypes := by
        intro t ht hmem
        exact hc ⟨el, hl, t, ht, hmem⟩
      have hns : ¬ (el.type = some TOOL_ITEMS.LINE ∨ el.type = some TOOL_ITEMS.RECTANGLE ∨
          el.type = some TOOL_ITEMS.CIRCLE ∨ el.type = some TOOL_ITEMS.ARROW) := by
        rintro (h | h | h | h)
        · exact hnotmem _ h (by simp [moveTypes, shapeMoveTypes])
        · exact hnotmem _ h (by simp [moveTypes, shapeMoveTypes])
        · exact hnotmem _ h (by simp [moveTypes, shapeMoveTypes])
        · exact hnotmem _ h (by simp [moveTypes, shapeMoveTypes])
      by_cases hb : el.type = some TOOL_ITEMS.BRUSH
      · exact absurd (by simp [moveTypes, shapeMoveTypes] : TOOL_ITEMS.BRUSH ∈ moveTypes)
          (hnotmem _ hb)
      · rw [drawMove_throw_unhandled s cx cy el hl hns hb]; rfl

theorem sessStep_deauth (s : SessionState) (h : s.authorized = false) (ev : SessEvent) :
    (sessStep s ev).authorized = false ∧ (sessStep s ev).drawEmits = s.drawEmits := by
  cases ev with
  | unauthorizedMsg =>
    by_cases hr : s.retryCount = 0
    · simp [sessStep, hr, h]
    · simp [sessStep, hr]
  | mouseDown => exact ⟨h, rfl⟩
  | mouseMove => simp [sessStep, h]
  | mouseUp => simp [sessStep, h]

theorem sessRun_frozen (s : SessionState) (h : s.authorized = false)
    (evs : List SessEvent) :
    (sessRun s evs).drawEmits = s.drawEmits ∧
    (sessRun s evs).authorized = false ∧
    (SessEvent.unauthorizedMsg ∉ evs → (sessRun s evs).alerts = s.alerts) := by
  induction evs generalizing s with
  | nil => exact ⟨rfl, h, fun _ => rfl⟩
  | cons ev rest ih =>
    have hstep := sessStep_deauth s h ev
    have hrec := ih (sessStep s ev) hstep.1
    refine ⟨?_, hrec.2.1, ?_⟩
    · show (sessRun (sessStep s ev) rest).drawEmits = s.drawEmits
      rw [hrec.1, hstep.2]
    · intro hmem
      have hmr : SessEvent.unauthorizedMsg ∉ rest := by
        intro hr; exact hmem (List.mem_cons_of_mem _ hr)
      have hne : ev ≠ SessEvent.unauthorizedMsg := by
        intro he; exact hmem (he ▸ List.mem_cons_self _ _)
      have halert : (sessStep s ev).alerts = s.alerts := by
        cases ev with
        | unauthorizedMsg => exact absurd rfl hne
        | mouseDown => rfl
        | mouseMove => simp [sessStep]; split <;> rfl
        | mouseUp => simp [sessStep]; split <;> rfl
      show (sessRun (sessStep s ev) rest).alerts = s.alerts
      rw [hrec.2.2 hmr, halert]

theorem setPointH_heap_cases (r i : Nat) (p : Point) (t : HBoard) :
    (setPointH r i p t).heap = t.heap ∨
    ∃ e, (setPointH r i p t).heap = t.heap.set r e := by
  unfold setPointH
  split
  · split
    · right; exact ⟨_, rfl⟩
    · left; rfl
  · left; rfl

theorem setPointH_getElem_ne (r i : Nat) (p : Point) (t : HBoard) (j : Nat)
    (hne : r ≠ j) : (setPointH r i p t).heap[j]? = t.heap[j]? := by
  rcases setPointH_heap_cases r i p t with h | ⟨e, h⟩
  · rw [h]
  · rw [h, List.getElem?_set_ne hne]

/-- C1: for every sequence of history operations (DRAW_UP pushes, undos and
redos) applied to a well-formed board state — one whose live elements and
history snapshot entries all pass the validity filter and whose cursor
snapshot equals the live collection, as holds for the initial state and
every state the reducer seeds — after each operation the snapshot
`history[index]` equals the live element collection and
`0 ≤ index < history.length` holds. -/
theorem historyCursorInvariant (s : BoardState) (h : WF s) (ops : List HistOp) :
    (applyOps s ops).history[(applyOps s ops).index]? =
      some (Snap.arr (applyOps s ops).elements) ∧
    (applyOps s ops).index < (applyOps s ops).history.length :=
  ⟨(WF_applyOps s h ops).2.2.2, (WF_applyOps s h ops).2.2.1⟩

/-- Witness for C1 at the initial board state and a concrete push, undo,
redo sequence. -/
theorem historyCursorInvariant_witness :
    WF initialBoardState ∧
    ((applyOps initialBoardState [HistOp.push, HistOp.histUndo, HistOp.histRedo]).history[
        (applyOps initialBoardState [HistOp.push, HistOp.histUndo, HistOp.histRedo]).index]? =
      some (Snap.arr (applyOps initialBoardState
        [HistOp.push, HistOp.histUndo, HistOp.histRedo]).elements) ∧
     (applyOps initialBoardState [HistOp.push, HistOp.histUndo, HistOp.histRedo]).index <
      (applyOps initialBoardState [HistOp.push, HistOp.histUndo, HistOp.histRedo]).history.length) :=
  ⟨by decide, historyCursorInvariant initialBoardState (by decide)
    [HistOp.push, HistOp.histUndo, HistOp.histRedo]⟩

/-- C2: DRAW_UP truncates the history to entries 0..index, appends the new
snapshot, and sets the cursor to `history.length - 1`; and from a history of
length 5 at index 4, undoing twice (reaching index 2) and pushing once
yields history of length 4 with index 3. -/
theorem drawUpTruncateAppend (s : BoardState) (h : s.index < s.history.length) :
    (drawUp s).history =
      s.history.take (s.index + 1) ++
        [Snap.arr ((filterValidElements s.elements).map copyJsEl)] ∧
    (drawUp s).index = (drawUp s).history.length - 1 ∧
    (undo (undo s5)).index = 2 ∧
    (drawUp (undo (undo s5))).history.length = 4 ∧
    (drawUp (undo (undo s5))).index = 3 := by
  refine ⟨rfl, ?_, by decide, by decide, by decide⟩
  show s.index + 1 = (s.history.take (s.index + 1) ++
    [Snap.arr ((filterValidElements s.elements).map copyJsEl)]).length - 1
  rw [List.length_append, List.length_take]
  simp
  omega

/-- Witness for C2 at the length-5 history state. -/
theorem drawUpTruncateAppend_witness :
    s5.index < s5.history.length ∧
    ((drawUp s5).history =
        s5.history.take (s5.index + 1) ++
          [Snap.arr ((filterValidElements s5.elements).map copyJsEl)] ∧
     (drawUp s5).index = (drawUp s5).history.length - 1 ∧
     (undo (undo s5)).index = 2 ∧
     (drawUp (undo (undo s5))).history.length = 4 ∧
     (drawUp (undo (undo s5))).index = 3) :=
  ⟨by decide, drawUpTruncateAppend s5 (by decide)⟩

/-- C3: undo and redo are total (they never throw) and defensively
recover: undo at cursor 0 is a no-op; undo whose target snapshot is missing
or not an array falls back to `history[0]` when that is an array and is
otherwise a no-op; redo at or past the last entry is a no-op; redo whose
target snapshot is missing or not an array falls back to the last entry
when that is an array and is otherwise a no-op. -/
theorem undoRedoDefensive (s : BoardState) :
    (s.index = 0 → undo s = s) ∧
    (s.index ≠ 0 → snapArr? s.history[s.index - 1]? = none →
      ((∀ h0, s.history[0]? = some (Snap.arr h0) →
         undo s = { s with elements := h0, index := 0 }) ∧
       (snapArr? s.history[0]? = none → undo s = s))) ∧
    (s.history.length - 1 ≤ s.index → redo s = s) ∧
    (s.index + 1 < s.history.length → snapArr? s.history[s.index + 1]? = none →
      ((∀ l, s.history[s.history.length - 1]? = some (Snap.arr l) →
         redo s = { s with elements := l.map jsonCloneEl,
                           index := s.history.length - 1 }) ∧
       (snapArr? s.history[s.history.length - 1]? = none → redo s = s))) := by
  refine ⟨undo_of_index_zero s, ?_, redo_of_at_end s, ?_⟩
  · intro hi hbad
    have h0 : s.history.length ≠ 0 → undo s = (match s.history[0]? with
        | some (Snap.arr h0) => { s with elements := h0, index := 0 }
        | _ => s) := by
      intro hlen
      unfold undo
      simp only [if_neg hlen, if_neg hi]
      cases hx : s.history[s.index - 1]? with
      | none => rfl
      | some sn =>
        cases sn with
        | arr els => rw [hx] at hbad; simp [snapArr?] at hbad
        | bad => rfl
    constructor
    · intro l hl
      have hlen : s.history.length ≠ 0 := by
        intro hz
        rw [List.getElem?_eq_none (by omega)] at hl
        exact Option.noConfusion hl
      rw [h0 hlen, hl]
    · intro hb0
      by_cases hlen : s.history.length = 0
      · unfold undo; simp [hlen]
      · rw [h0 hlen]
        cases hx : s.history[0]? with
        | none => rfl
        | some sn =>
          cases sn with
          | arr els => rw [hx] at hb0; simp [snapArr?] at hb0
          | bad => rfl
  · intro hi hbad
    have hlen : s.history.length ≠ 0 := by omega
    have hnle : ¬ (s.history.length - 1 ≤ s.index) := by omega
    have h0 : redo s = (match s.history[s.history.length - 1]? with
        | some (Snap.arr l) => { s with elements := l.map jsonCloneEl,
                                        index := s.history.length - 1 }
        | _ => s) := by
      unfold redo
      simp only [if_neg hlen, if_neg hnle]
      cases hx : s.history[s.index + 1]? with
      | none => rfl
      | some sn =>
        cases sn with
        | arr els => rw [hx] at hbad; simp [snapArr?] at hbad
        | bad => rfl
    constructor
    · intro l hl
      rw [h0, hl]
    · intro hb0
      rw [h0]
      cases hx : s.history[s.history.length - 1]? with
      | none => rfl
      | some sn =>
        cases sn with
        | arr els => rw [hx] at hb0; simp [snapArr?] at hb0
        | bad => rfl

/-- Witness for C3 at concrete states exercising the boundary no-ops, both
recovery fallbacks and both fallback no-ops. -/
theorem undoRedoDefensive_witness :
    undo sBadUndo = { sBadUndo with elements := [some lineEl], index := 0 } ∧
    undo sBadUndo2 = sBadUndo2 ∧
    redo sBadRedo = { sBadRedo with elements := [some lineEl], index := 2 } ∧
    redo sBadRedo2 = sBadRedo2 ∧
    undo initialBoardState = initialBoardState ∧
    redo initialBoardState = initialBoardState := by
  refine ⟨?_, ?_, ?_, ?_, ?_, ?_⟩
  · exact ((undoRedoDefensive sBadUndo).2.1 (by decide) (by decide)).1
      [some lineEl] (by decide)
  · exact ((undoRedoDefensive sBadUndo2).2.1 (by decide) (by decide)).2 (by decide)
  · have h := ((undoRedoDefensive sBadRedo).2.2.2 (by decide) (by decide)).1
      [some lineEl] (by decide)
    simpa using h
  · exact ((undoRedoDefensive sBadRedo2).2.2.2 (by decide) (by decide)).2 (by decide)
  · exact (undoRedoDefensive initialBoardState).1 (by decide)
  · exact (undoRedoDefensive initialBoardState).2.2.1 (by decide)

/-- C4 counterexample: a DRAW_MOVE processed in the DRAWING phase whose
last element has type text — a member of the claimed recognized set — does
throw, refuting the claim that only types outside the recognized set throw. -/
theorem drawMoveTextThrows :
    cTextState.toolActionType = TOOL_ACTION_TYPES.DRAWING ∧
    cTextState.elements.getLast? = some (some textEl) ∧
    textEl.type = some TOOL_ITEMS.TEXT ∧
    TOOL_ITEMS.TEXT ∈ recognizedTypes ∧
    isThrow (drawMove 1 1 cTextState) = true := by decide

/-- C4 (amended): a DRAW_MOVE processed while the state machine is in the
DRAWING phase (whose brush last element, if any, carries its point
sequence) throws iff the last entry is absent, null, or of a type outside
line/rectangle/circle/arrow/freehand-brush — so a text-typed last element
throws; for the four shape types it rebuilds the last element with its
terminal geometry at the pointer location, and for brush it appends the
pointer location to the point sequence, without throwing.  (The reducer
does not consult the phase for this action, so the property holds whenever
the event is processed, in particular in the DRAWING phase.) -/
theorem drawMoveThrowCharacterization (s : BoardState) (cx cy : Int)
    (_hphase : s.toolActionType = TOOL_ACTION_TYPES.DRAWING)
    (hbrush : ∀ el, s.elements.getLast? = some (some el) →
      el.type = some TOOL_ITEMS.BRUSH → el.points.isSome = true) :
    (isThrow (drawMove cx cy s) = true ↔ ¬ canMoveLast s) ∧
    (∀ el, s.elements.getLast? = some (some el) →
      (el.type = some TOOL_ITEMS.LINE ∨ el.type = some TOOL_ITEMS.RECTANGLE ∨
       el.type = some TOOL_ITEMS.CIRCLE ∨ el.type = some TOOL_ITEMS.ARROW) →
      drawMove cx cy s = Except.ok { s with
        elements := s.elements.set (s.elements.length - 1)
          (some (createElement (s.elements.length - 1) el.x1 el.y1 cx cy
            (some s.activeToolItem) el.stroke el.fill el.size)) } ∧
      (createElement (s.elements.length - 1) el.x1 el.y1 cx cy
        (some s.activeToolItem) el.stroke el.fill el.size).x2 = cx ∧
      (createElement (s.elements.length - 1) el.x1 el.y1 cx cy
        (some s.activeToolItem) el.stroke el.fill el.size).y2 = cy) ∧
    (∀ el pts, s.elements.getLast? = some (some el) →
      el.type = some TOOL_ITEMS.BRUSH → el.points = some pts →
      drawMove cx cy s = Except.ok { s with
        elements := s.elements.set (s.elements.length - 1)
          (some { el with points := some (pts ++ [{ x := cx, y := cy }]) }) }) := by
  refine ⟨⟨fun hthrow hc => ?_,
    fun hc => drawMove_throw_of_not_canMove s cx cy hc⟩, ?_, ?_⟩
  · rw [drawMove_noThrow_of_canMove s cx cy hbrush hc] at hthrow
    exact Bool.noConfusion hthrow
  · intro el hl hshape
    exact ⟨drawMove_shape s cx cy el hl hshape, rfl, rfl⟩
  · intro el pts hl ht hp
    exact drawMove_brush s cx cy el pts hl ht hp

/-- Witness for C4 (amended) at a DRAWING-phase state with a line last
element and pointer location (7, 9). -/
theorem drawMoveThrowCharacterization_witness :
    drawMove 7 9 cLineState = Except.ok { cLineState with
      elements := cLineState.elements.set (cLineState.elements.length - 1)
        (some (createElement (cLineState.elements.length - 1) lineEl.x1 lineEl.y1 7 9
          (some cLineState.activeToolItem) lineEl.stroke lineEl.fill lineEl.size)) } ∧
    (createElement (cLineState.elements.length - 1) lineEl.x1 lineEl.y1 7 9
      (some cLineState.activeToolItem) lineEl.stroke lineEl.fill lineEl.size).x2 = 7 ∧
    (createElement (cLineState.elements.length - 1) lineEl.x1 lineEl.y1 7 9
      (some cLineState.activeToolItem) lineEl.stroke lineEl.fill lineEl.size).y2 = 9 := by
  have hb : ∀ el, cLineState.elements.getLast? = some (some el) →
      el.type = some TOOL_ITEMS.BRUSH → el.points.isSome = true := by
    intro el hl ht
    have h2 : (some (some lineEl) : Option (Option ElementObj)) = some (some el) := hl
    injection h2 with h3
    injection h3 with h4
    rw [← h4] at ht
    exact absurd ht (by decide)
  exact (drawMoveThrowCharacterization cLineState 7 9 (by decide) hb).2.1
    lineEl (by decide) (by decide)

/-- C5 counterexample: an erase pass that removes no element still grows
the history: from the initial state (no elements), one ERASE leaves the
collection unchanged but still pushes a snapshot. -/
theorem eraseNoChangeStillPushes :
    (erase (fun _ _ _ => false) 0 0 initialBoardState).elements =
      initialBoardState.elements ∧
    (erase (fun _ _ _ => false) 0 0 initialBoardState).history.length =
      initialBoardState.history.length + 1 := by decide

/-- C5 (amended): every erase pass makes the live collection the previous
collection filtered by validity and not-isPointNearElement at the pointer
location, and pushes a history snapshot of the filtered collection
unconditionally — also when no element was removed. -/
theorem erasePassBehavior (hit : ElementObj → Int → Int → Bool) (cx cy : Int)
    (s : BoardState) :
    (erase hit cx cy s).elements = s.elements.filter (eraseKeep hit cx cy) ∧
    (erase hit cx cy s).history =
      s.history.take (s.index + 1) ++
        [Snap.arr (s.elements.filter (eraseKeep hit cx cy))] ∧
    (erase hit cx cy s).index = s.index + 1 ∧
    (∀ e : ElementObj, truthyType (some e) = true →
      eraseKeep hit cx cy (some e) = !(hit e cx cy)) := by
  refine ⟨rfl, rfl, rfl, ?_⟩
  intro e he
  simp only [truthyType] at he
  cases ht : e.type with
  | none => rw [ht] at he; exact Bool.noConfusion he
  | some t =>
    rw [ht] at he
    have he2 : (t == "") = false := by
      rw [Bool.not_eq_eq_eq_not] at he
      exact he
    simp [eraseKeep, ht, he2]

/-- Witness for C5 (amended) at the initial state with a never-hitting
proximity predicate. -/
theorem erasePassBehavior_witness :
    (erase (fun _ _ _ => false) 0 0 initialBoardState).index =
      initialBoardState.index + 1 ∧
    eraseKeep (fun _ _ _ => false) 0 0 (some lineEl) =
      !((fun _ _ _ => false) lineEl 0 0) :=
  ⟨(erasePassBehavior (fun _ _ _ => false) 0 0 initialBoardState).2.2.1,
   (erasePassBehavior (fun _ _ _ => false) 0 0 initialBoardState).2.2.2
     lineEl (by decide)⟩

/-- C6 counterexample: the valid-element filter keeps an element whose
`type` is truthy but outside the recognized set, refuting the claim that
its output contains only elements with a recognized type. -/
theorem filterKeepsUnrecognizedType :
    filterValidElements [some wobbleEl] = [some wobbleEl] ∧
    recognizedEl (some wobbleEl) = false := by decide

/-- C6 (amended): the valid-element filter returns exactly the entries with
a present, non-empty `type` — an entry is in the output iff it is in the
input and truthy-typed (so no truthy entry is ever dropped), the output is
an order-preserving sublist of the input — and the mixed list of a line
element, a type-less object and a null entry filters to exactly the line
element. -/
theorem filterValidTruthyOnly (els : List (Option ElementObj)) :
    (∀ el, el ∈ filterValidElements els ↔
      (el ∈ els ∧ truthyType el = true)) ∧
    List.Sublist (filterValidElements els) els ∧
    filterValidElements [some lineEl, some fooEl, none] = [some lineEl] :=
  ⟨fun el => List.mem_filter, List.filter_sublist els, by decide⟩

/-- Witness for C6 (amended): both directions of the membership
characterization at a concrete mixed list, for a truthy entry and for a
type-less one. -/
theorem filterValidTruthyOnly_witness :
    (some lineEl ∈ filterValidElements [some lineEl, some fooEl, none] ↔
      (some lineEl ∈ [some lineEl, some fooEl, none] ∧
       truthyType (some lineEl) = true)) ∧
    (some fooEl ∈ filterValidElements [some lineEl, some fooEl, none] ↔
      (some fooEl ∈ [some lineEl, some fooEl, none] ∧
       truthyType (some fooEl) = true)) ∧
    filterValidElements [some lineEl, some fooEl, none] = [some lineEl] :=
  ⟨(filterValidTruthyOnly [some lineEl, some fooEl, none]).1 (some lineEl),
   (filterValidTruthyOnly [some lineEl, some fooEl, none]).1 (some fooEl),
   (filterValidTruthyOnly [some lineEl, some fooEl, none]).2.2⟩

/-- C7: after two consecutive join-authorization failures the session is
terminal: the join was retried exactly once, exactly one denial alert was
shown, authorization is revoked, and from then on no sequence of pointer
events (indeed no event sequence at all) ever emits a drawingUpdate from
the pointer handlers; pointer-only continuations also add no further
alerts. -/
theorem doubleUnauthorizedTerminal (evs : List SessEvent) :
    (sessRun initSession [SessEvent.unauthorizedMsg, SessEvent.unauthorizedMsg]).joinRetries = 1 ∧
    (sessRun initSession [SessEvent.unauthorizedMsg, SessEvent.unauthorizedMsg]).alerts = 1 ∧
    (sessRun initSession [SessEvent.unauthorizedMsg, SessEvent.unauthorizedMsg]).authorized = false ∧
    (sessRun (sessRun initSession [SessEvent.unauthorizedMsg, SessEvent.unauthorizedMsg])
      evs).drawEmits = 0 ∧
    (SessEvent.unauthorizedMsg ∉ evs →
      (sessRun (sessRun initSession [SessEvent.unauthorizedMsg, SessEvent.unauthorizedMsg])
        evs).alerts = 1) := by
  have hfz := sessRun_frozen
    (sessRun initSession [SessEvent.unauthorizedMsg, SessEvent.unauthorizedMsg])
    (by decide) evs
  refine ⟨by decide, by decide, by decide, ?_, ?_⟩
  · rw [hfz.1]; decide
  · intro hmem
    rw [hfz.2.2 hmem]; decide

/-- Witness for C7 with a concrete pointer-event continuation. -/
theorem doubleUnauthorizedTerminal_witness :
    (sessRun initSession [SessEvent.unauthorizedMsg, SessEvent.unauthorizedMsg]).joinRetries = 1 ∧
    (sessRun initSession [SessEvent.unauthorizedMsg, SessEvent.unauthorizedMsg]).alerts = 1 ∧
    (sessRun initSession [SessEvent.unauthorizedMsg, SessEvent.unauthorizedMsg]).authorized = false ∧
    (sessRun (sessRun initSession [SessEvent.unauthorizedMsg, SessEvent.unauthorizedMsg])
      [SessEvent.mouseMove, SessEvent.mouseUp, SessEvent.mouseDown]).drawEmits = 0 ∧
    (sessRun (sessRun initSession [SessEvent.unauthorizedMsg, SessEvent.unauthorizedMsg])
      [SessEvent.mouseMove, SessEvent.mouseUp, SessEvent.mouseDown]).alerts = 1 := by
  have h := doubleUnauthorizedTerminal
    [SessEvent.mouseMove, SessEvent.mouseUp, SessEvent.mouseDown]
  exact ⟨h.1, h.2.1, h.2.2.1, h.2.2.2.1, h.2.2.2.2 (by decide)⟩

/-- C8 counterexample: the ERASE branch pushes the live address list
itself into history, so the stored snapshot shares its element objects
with the live collection: after an erase pass that removes nothing,
mutating a point of the live freehand element changes the stored
snapshot's value.  This refutes the claim that every snapshot stored in
history is a deep copy sharing no mutable sub-structure. -/
theorem eraseSnapshotShared :
    hBrushErased.history.getLast? = some [0] ∧
    hBrushErased.elements = [0] ∧
    (∃ e, hBrushErased.heap[0]? = some e ∧ e.type = some TOOL_ITEMS.BRUSH) ∧
    snapshotVals (setPointH 0 0 { x := 5, y := 5 } hBrushErased) [0] ≠
      snapshotVals hBrushErased [0] := by decide

/-- C8 (amended): snapshots pushed by DRAW_UP are deep copies isolated
from the live collection — after a DRAW_UP, mutating any point of any
element object reachable from the pre-existing heap (in particular any
live element) leaves the values of the appended snapshot unchanged;
snapshots pushed by ERASE share their element objects with the live
collection, as the counterexample shows. -/
theorem drawUpSnapshotIsolated (s : HBoard) (r i : Nat) (p : Point)
    (hr : r < s.heap.length) :
    ∀ snap, (drawUpH s).history.getLast? = some snap →
      snapshotVals (setPointH r i p (drawUpH s)) snap =
        snapshotVals (drawUpH s) snap := by
  intro snap hsnap
  have hlast : (drawUpH s).history.getLast? =
      some ((List.range (((s.elements.filter (refTruthy s.heap)).filterMap
        (fun q => s.heap[q]?)).map copyElement).length).map
          (fun j => s.heap.length + j)) := by
    show (_ ++ [_] : List (List Nat)).getLast? = _
    exact List.getLast?_concat _
  rw [hlast] at hsnap
  injection hsnap with hsnap
  subst hsnap
  unfold snapshotVals
  refine List.map_congr_left ?_
  intro a ha
  have hge : s.heap.length ≤ a := by
    simp only [List.mem_map, List.mem_range] at ha
    obtain ⟨j, hj, rfl⟩ := ha
    omega
  exact setPointH_getElem_ne r i p (drawUpH s) a (by omega)

/-- Witness for C8 (amended) at the concrete one-brush heap. -/
theorem drawUpSnapshotIsolated_witness :
    snapshotVals (setPointH 0 0 { x := 5, y := 5 } (drawUpH hBrush))
        ((drawUpH hBrush).history.getLast?.getD []) =
      snapshotVals (drawUpH hBrush) ((drawUpH hBrush).history.getLast?.getD []) :=
  drawUpSnapshotIsolated hBrush 0 0 { x := 5, y := 5 } (by decide)
    ((drawUpH hBrush).history.getLast?.getD []) (by decide)

/-- C9: when the canvas identity changes from A to B while the side ref
still holds A and A's last-known elements, the socket effect's action
trace is exactly one drawingUpdate broadcast tagged with A (not B)
carrying those elements, followed by the ref update and the clearing of
the live collection and history — so the broadcast happens exactly once
and strictly before the clears. -/
theorem switchBroadcastsPrevOnce (A B : String) (els : List (Option ElementObj))
    (hA : A ≠ "") (hAB : A ≠ B) :
    socketEffectTrace { id := some A, elements := els } (some B) =
      [BoardEffect.emitDrawingUpdate A els, BoardEffect.updateRef (some B) [],
       BoardEffect.clearElements, BoardEffect.resetHistory,
       BoardEffect.setAuthorizedTrue] := by
  show (if A ≠ "" ∧ A ≠ B then [BoardEffect.emitDrawingUpdate A els] else []) ++
      [BoardEffect.updateRef (some B) [], BoardEffect.clearElements,
       BoardEffect.resetHistory, BoardEffect.setAuthorizedTrue] = _
  rw [if_pos ⟨hA, hAB⟩]
  rfl

/-- Witness for C9 at concrete identities and a one-element list. -/
theorem switchBroadcastsPrevOnce_witness :
    socketEffectTrace { id := some "A", elements := [some lineEl] } (some "B") =
      [BoardEffect.emitDrawingUpdate "A" [some lineEl],
       BoardEffect.updateRef (some "B") [], BoardEffect.clearElements,
       BoardEffect.resetHistory, BoardEffect.setAuthorizedTrue] :=
  switchBroadcastsPrevOnce "A" "B" [some lineEl] (by decide) (by decide)

/-- C10: DRAW_UP leaves the live element collection itself unchanged — the
same list in the value model and the same address list in the heap model,
type-less entries included — and only the snapshot appended to history is
filtered and deep-copied, so a type-less element present at gesture end
stays in the live collection while being absent from the stored snapshot. -/
theorem drawUpLeavesLiveUntouched (s : BoardState) (t : HBoard) :
    (drawUp s).elements = s.elements ∧
    (drawUpH t).elements = t.elements ∧
    (drawUp s).history.getLast? =
      some (Snap.arr ((filterValidElements s.elements).map copyJsEl)) ∧
    (∀ el ∈ s.elements, truthyType el = false →
      el ∈ (drawUp s).elements ∧
      el ∉ (filterValidElements s.elements).map copyJsEl) := by
  refine ⟨rfl, rfl, ?_, ?_⟩
  · show (s.history.take (s.index + 1) ++ [Snap.arr _]).getLast? = _
    exact List.getLast?_concat _
  · intro el hmem hfalse
    refine ⟨hmem, ?_⟩
    rw [map_copyJsEl_id]
    simp only [filterValidElements, List.mem_filter]
    intro hin
    rw [hfalse] at hin
    exact Bool.noConfusion hin.2

/-- Witness for C10 at a state holding a valid and a type-less element. -/
theorem drawUpLeavesLiveUntouched_witness :
    (drawUp sMixed).elements = sMixed.elements ∧
    (drawUpH hBrush).elements = hBrush.elements ∧
    some fooEl ∈ (drawUp sMixed).elements ∧
    some fooEl ∉ (filterValidElements sMixed.elements).map copyJsEl := by
  have h := drawUpLeavesLiveUntouched sMixed hBrush
  have h4 := h.2.2.2 (some fooEl) (by decide) (by decide)
  exact ⟨h.1, h.2.1, h4.1, h4.2⟩
